import Mathlib

/-!
Verification development for the epubjs-reader session controller
(class Reader). JavaScript objects are modelled as association lists
from property names to JSON-like values; a property whose value is
undefined is modelled as an absent key (the code only ever observes
undefined-valued properties through checks that treat them as absent:
comparison with void 0, truthiness tests, and JSON serialization,
which all identify them with missing keys).
-/

namespace EpubReader

/-- JSON-like runtime values (strings, booleans, numbers, null, arrays,
objects). Numbers are modelled as integers, sufficient for every value
the reader stores. -/
inductive JVal where
  | jstr  : String → JVal
  | jbool : Bool → JVal
  | jnum  : Int → JVal
  | jnull : JVal
  | jarr  : List JVal → JVal
  | jobj  : List (String × JVal) → JVal

/-- A JavaScript object: ordered own properties. -/
abbrev Obj := List (String × JVal)

/-- Property read: first binding of the key, none when undefined. -/
def getProp {α : Type} : List (String × α) → String → Option α
  | [], _ => none
  | (k, v) :: rest, key => if k = key then some v else getProp rest key

/-- Property write, modelling JavaScript assignment: an existing key is
updated in place (enumeration order preserved), a new key is appended. -/
def setProp {α : Type} : List (String × α) → String → α → List (String × α)
  | [], key, v => [(key, v)]
  | (k, w) :: rest, key, v =>
    if k = key then (k, v) :: rest else (k, w) :: setProp rest key v

/-- Left-biased choice on optional values. -/
def orOpt {α : Type} (a b : Option α) : Option α :=
  match a with
  | some v => some v
  | none => b

/-- JavaScript truthiness of the modelled values. -/
def truthy : JVal → Bool
  | JVal.jstr s => s != ""
  | JVal.jbool b => b
  | JVal.jnum n => n != 0
  | JVal.jnull => false
  | JVal.jarr _ => true
  | JVal.jobj _ => true

/-- Truthiness of a possibly-undefined value (undefined is falsy). -/
def truthyOpt : Option JVal → Bool
  | none => false
  | some v => truthy v

/-- The own enumerable properties a for-in loop visits on a value:
the fields of an object, the indexed characters of a primitive string,
the indexed elements of an array, nothing otherwise. -/
def enumProps : JVal → List (String × JVal)
  | JVal.jobj l => l
  | JVal.jstr s =>
    (s.toList.enum).map (fun p => (toString p.1, JVal.jstr (String.mk [p.2])))
  | JVal.jarr xs => (xs.enum).map (fun p => (toString p.1, p.2))
  | _ => []

/-- Reader.defaults, one source, on enumerated properties: for each
property of the source, if the target field is undefined it is filled
in with the source value, otherwise it is left untouched. -/
def defaultsProps : Obj → List (String × JVal) → Obj
  | obj, [] => obj
  | obj, kv :: rest =>
    match getProp obj kv.1 with
    | some _ => defaultsProps obj rest
    | none => defaultsProps (obj ++ [kv]) rest

/-- Reader.defaults with a single source value (the only arity the
reader uses): fills exactly the undefined fields of the target from the
enumerable properties of the source. -/
def defaults (obj : Obj) (source : JVal) : Obj :=
  defaultsProps obj (enumProps source)

/- ------------------------- basic lemmas ------------------------- -/

theorem orOpt_none {α : Type} (a : Option α) : orOpt a none = a := by
  cases a <;> rfl

theorem orOpt_some_left {α : Type} (v : α) (b : Option α) :
    orOpt (some v) b = some v := rfl

theorem getProp_append {α : Type} (l : List (String × α)) (k key : String) (v : α) :
    getProp (l ++ [(k, v)]) key =
      orOpt (getProp l key) (if k = key then some v else none) := by
  induction l with
  | nil => simp [getProp, orOpt]
  | cons hd tl ih =>
    by_cases h : hd.1 = key
    · simp [getProp, h, orOpt]
    · simpa [getProp, h] using ih

theorem getProp_defaultsProps (ps : List (String × JVal)) (l : Obj) (key : String) :
    getProp (defaultsProps l ps) key = orOpt (getProp l key) (getProp ps key) := by
  induction ps generalizing l with
  | nil => simp [defaultsProps, getProp, orOpt_none]
  | cons kv rest ih =>
    rcases kv with ⟨k, v⟩
    by_cases hk : k = key
    · subst hk
      cases hl : getProp l k with
      | some w =>
        simp only [defaultsProps, hl, ih]
        simp [getProp, hl, orOpt]
      | none =>
        simp only [defaultsProps, hl, ih]
        rw [getProp_append]
        simp [getProp, hl, orOpt]
    · cases hl : getProp l k with
      | some w =>
        simp only [defaultsProps, hl, ih]
        simp [getProp, hk]
      | none =>
        simp only [defaultsProps, hl, ih]
        rw [getProp_append]
        simp [getProp, hk, orOpt_none]

theorem getProp_isSome_of_mem {α : Type} {ps : List (String × α)} {k : String} {v : α}
    (h : (k, v) ∈ ps) : (getProp ps k).isSome := by
  induction ps with
  | nil => cases h
  | cons hd tl ih =>
    rcases List.mem_cons.mp h with h1 | h1
    · subst h1; simp [getProp]
    · by_cases hk : hd.1 = k
      · simp [getProp, hk]
      · simpa [getProp, hk] using ih h1

theorem defaultsProps_of_keys_present (ps : List (String × JVal)) (l : Obj)
    (h : ∀ kv ∈ ps, (getProp l kv.1).isSome) : defaultsProps l ps = l := by
  induction ps with
  | nil => rfl
  | cons kv rest ih =>
    have hkv : (getProp l kv.1).isSome := h kv (by simp)
    cases hs : getProp l kv.1 with
    | none => rw [hs] at hkv; cases hkv
    | some w =>
      simp only [defaultsProps, hs]
      exact ih (fun kv2 h2 => h kv2 (by simp [h2]))

theorem defaultsProps_idem (l : Obj) (ps : List (String × JVal)) :
    defaultsProps (defaultsProps l ps) ps = defaultsProps l ps := by
  apply defaultsProps_of_keys_present
  intro kv hmem
  rw [getProp_defaultsProps]
  have hs : (getProp ps kv.1).isSome := getProp_isSome_of_mem hmem
  cases hl : getProp l kv.1 with
  | some w => simp [orOpt]
  | none => simpa [orOpt] using hs

theorem getProp_setProp_self {α : Type} (l : List (String × α)) (k : String) (v : α) :
    getProp (setProp l k v) k = some v := by
  induction l with
  | nil => simp [setProp, getProp]
  | cons hd tl ih =>
    by_cases h : hd.1 = k
    · simp [setProp, getProp, h]
    · simpa [setProp, getProp, h] using ih

theorem getProp_setProp_ne {α : Type} (l : List (String × α)) (k key : String) (v : α)
    (h : k ≠ key) : getProp (setProp l k v) key = getProp l key := by
  induction l with
  | nil => simp [setProp, getProp, h]
  | cons hd tl ih =>
    by_cases hh : hd.1 = k
    · simp [setProp, getProp, hh, h]
    · simp [setProp, getProp, hh, ih]

theorem setProp_eq_of_getProp {α : Type} (l : List (String × α)) (k : String) (v : α)
    (h : getProp l k = some v) : setProp l k v = l := by
  induction l with
  | nil => simp [getProp] at h
  | cons hd tl ih =>
    by_cases hh : hd.1 = k
    · rcases hd with ⟨k1, v1⟩
      simp only [getProp] at h
      simp only at hh
      rw [if_pos hh] at h
      cases h
      simp [setProp, hh]
    · simp only [getProp] at h
      rw [if_neg hh] at h
      simp [setProp, hh, ih h]

/- --------------------- saved-settings merge --------------------- -/

/-- Reading a named property of an arbitrary value (stored.styles):
defined only when the value is an object, undefined otherwise. -/
def propOf (v : JVal) (key : String) : Option JVal :=
  match v with
  | JVal.jobj l => getProp l key
  | _ => none

/-- The merge target this.settings.styles or-else the empty object:
the current styles value when it is truthy, the empty object when the
field is undefined or falsy. -/
def stylesTarget (v : Option JVal) : JVal :=
  match v with
  | some w => if truthy w then w else JVal.jobj []
  | none => JVal.jobj []

/-- Reader.defaults applied to a target value that may not be an
object: assignments into an object fill its undefined fields; property
assignment on a primitive target is discarded (the wrapper object is
transient), so the target is returned unchanged. -/
def defaultsVal (target : JVal) (source : JVal) : JVal :=
  match target with
  | JVal.jobj l => JVal.jobj (defaultsProps l (enumProps source))
  | t => t

/-- The merge body of Reader.applySavedSettings, run when the parsed
record is truthy: first the styles of the record (when truthy) are
merged into this.settings.styles (or an empty object) with defaults,
then the whole record fills the remaining undefined settings fields. -/
def applySavedMerge (settings : Obj) (stored : JVal) : Obj :=
  let s1 :=
    match propOf stored "styles" with
    | some sty =>
      if truthy sty then
        setProp settings "styles"
          (defaultsVal (stylesTarget (getProp settings "styles")) sty)
      else settings
    | none => settings
  defaultsProps s1 (enumProps stored)

/- ------------------------- persistence ------------------------- -/

/-- The localStorage backend: key-value pairs of strings. getItem is
modelled by getProp (absent key plays the role of null), setItem by
setProp. -/
abbrev Store := List (String × String)

/-- The string key this.settings.bookKey under which the record is
stored; a missing or non-string field falls back to the string a
JavaScript key coercion would produce for undefined. -/
def bookKeyOf (settings : Obj) : String :=
  match getProp settings "bookKey" with
  | some (JVal.jstr k) => k
  | _ => "undefined"

/-- Reader.applySavedSettings. parseF models the external JSON.parse:
none is a parse failure (the thrown exception, caught by the handler,
leaves the local variable stored undefined). A missing record makes
getItem return null, which JSON.parse coerces to the text null and
parses successfully to the null value; null is falsy, so the function
returns false without touching settings. Returns the result flag and
the settings object after the call. -/
def applySavedSettings (parseF : String → Option JVal) (lsAvail : Bool)
    (storage : Store) (settings : Obj) : Bool × Obj :=
  if lsAvail then
    let stored : Option JVal :=
      match getProp storage (bookKeyOf settings) with
      | none => some JVal.jnull
      | some text => parseF text
    match stored with
    | some v =>
      if truthy v then (true, applySavedMerge settings v) else (false, settings)
    | none => (false, settings)
  else (false, settings)

/-- The first half of Reader.saveSettings: when a book is open, the
start CFI of the current rendition location (when present) is copied
into this.settings.previousLocationCfi. This runs before the
localStorage availability check. -/
def updateLocationCfi (bookLoaded : Bool) (curStart : Option String)
    (settings : Obj) : Obj :=
  if bookLoaded then
    match curStart with
    | some cfi => setProp settings "previousLocationCfi" (JVal.jstr cfi)
    | none => settings
  else settings

/-- Reader.saveSettings. stringifyF models the external
JSON.stringify. Returns the result flag, the settings object after the
call, and the storage after the call. -/
def saveSettings (stringifyF : Obj → String) (bookLoaded : Bool)
    (curStart : Option String) (lsAvail : Bool) (storage : Store)
    (settings : Obj) : Bool × Obj × Store :=
  let s1 := updateLocationCfi bookLoaded curStart settings
  if lsAvail then
    (true, s1, setProp storage (bookKeyOf s1) (stringifyF s1))
  else (false, s1, storage)

/- --------------------------- book key --------------------------- -/

/-- Reader.setBookKey. md5 models the external hash. The key is
computed only when this.settings.bookKey is undefined; otherwise the
settings are left untouched. -/
def setBookKey (md5 : String → String) (settings : Obj)
    (identifier : String) : Obj :=
  match getProp settings "bookKey" with
  | none =>
    setProp settings "bookKey"
      (JVal.jstr ("epubjs-reader:" ++ md5 identifier))
  | some _ => settings

/- ---------------------- query-string parsing ---------------------- -/

/-- Split of a character list at every occurrence of the separator,
keeping empty segments, as String.prototype.split does for a
one-character separator. -/
def splitCharList (c : Char) : List Char → List (List Char)
  | [] => [[]]
  | x :: xs =>
    match splitCharList c xs with
    | [] => if x = c then [[], [x]] else [[x]]
    | y :: ys => if x = c then [] :: y :: ys else (x :: y) :: ys

/-- p.split(sep) for a one-character separator. -/
def splitOnChar (c : Char) (s : String) : List String :=
  (splitCharList c s.toList).map String.mk

/-- s.slice(1): drop the first character. -/
def jsSliceOne (s : String) : String :=
  String.mk (s.toList.drop 1)

/-- s.slice(0, -1): drop the last character. -/
def jsSliceDropLast (s : String) : String :=
  String.mk (s.toList.dropLast)

/-- One query parameter split at the equals signs: the name is the
segment before the first separator, the value is the second segment
(or-else the empty string when it is missing or empty). Text after a
second separator inside the same parameter is dropped. -/
def parseParam (p : String) : String × String :=
  let split := splitOnChar '=' p
  (split.headD "", (split.drop 1).headD "")

/-- The body of the query loop in Reader.init for one parameter:
this.settings[name] = decodeURIComponent(value), an unconditional
assignment. dec models the external decodeURIComponent. -/
def applyQueryParam (dec : String → String) (settings : Obj) (p : String) : Obj :=
  setProp settings (parseParam p).1 (JVal.jstr (dec (parseParam p).2))

/-- The query phase of Reader.init: when location.search is nonempty,
it is split after the leading question mark at every ampersand and
each parameter is assigned into settings in order. -/
def applyQuery (dec : String → String) (settings : Obj) (search : String) : Obj :=
  if search = "" then settings
  else (splitOnChar '&' (jsSliceOne search)).foldl (applyQueryParam dec) settings

/-- The construction-time defaults object of Reader.init. Fields
initialized to undefined in the source literal (bookmarks, annotations,
contained, bookKey, styles) are modelled as absent keys. -/
def builtinDefaults (bookPath : String) : Obj :=
  [("bookPath", JVal.jstr bookPath),
   ("restore", JVal.jbool false),
   ("reload", JVal.jbool false),
   ("reflowText", JVal.jbool false),
   ("pagination", JVal.jbool false),
   ("history", JVal.jbool true),
   ("language", JVal.jstr "en")]

/-- The settings pipeline at the top of Reader.init: defaults of the
caller options over the built-in defaults, then the URL-query
overrides. -/
def initSettingsPhase (dec : String → String) (options : Obj)
    (bookPath search : String) : Obj :=
  applyQuery dec (defaultsProps options (builtinDefaults bookPath)) search

/-- The guard of the restore step of Reader.init: truthiness of
this.settings.restore. -/
def restoreEnabled (settings : Obj) : Bool :=
  truthyOpt (getProp settings "restore")

/- ------------------------ location tracker ------------------------ -/

/-- The browser-level state Reader.setLocation touches:
window.location.hash, the history stack entries pushed so far, and
this.currentLocationCfi. -/
structure LocState where
  hash : String
  historyEntries : List String
  currentLocationCfi : Option String
deriving DecidableEq

/-- Reader.setLocation: records the position, and pushes the fragment
onto the history (history.pushState also makes it the current
location.hash) only when this.settings.history is truthy and the
fragment differs from the current hash. -/
def setLocation (historyEnabled : Bool) (st : LocState) (cfi : String) : LocState :=
  let cfiFragment := "#" ++ cfi
  let st1 : LocState := { st with currentLocationCfi := some cfi }
  if historyEnabled && (st1.hash != cfiFragment) then
    { st1 with hash := cfiFragment,
               historyEntries := st1.historyEntries ++ [cfiFragment] }
  else st1

/- ------------------------- input handler ------------------------- -/

/-- The digits-prefix part of the external parseInt: longest prefix of
decimal digits, NaN (none) when there is none. -/
def parseDigits (cs : List Char) : Option Nat :=
  let ds := cs.takeWhile Char.isDigit
  if ds.isEmpty then none
  else some (ds.foldl (fun a c => a * 10 + (c.toNat - 48)) 0)

/-- Model of the external parseInt in base 10 on the strings the
reader produces: optional leading whitespace, optional sign, then
decimal digits; none models NaN. -/
def jsParseInt (s : String) : Option Int :=
  match s.toList.dropWhile (fun c => c = ' ') with
  | '-' :: rest => (parseDigits rest).map (fun n => -(n : Int))
  | '+' :: rest => (parseDigits rest).map (fun n => (n : Int))
  | rest => (parseDigits rest).map (fun n => (n : Int))

/-- Number-to-string coercion of fontSize + "%": NaN prints as NaN,
integers in decimal. -/
def jsNumToString : Option Int → String
  | none => "NaN"
  | some n => toString n

/-- A keydown event as the handler reads it. -/
structure KeyEvent where
  ctrlKey : Bool
  metaKey : Bool
  key : String
deriving DecidableEq

/-- The font-size arithmetic of the modifier branch of
Reader.arrowKeys: an undefined fontSize is first set to 100 percent,
the percent sign is sliced off and the rest parsed, the key = adds the
interval 2, the key - subtracts it, the key 0 resets to 100, any other
key leaves the parsed value; the result is written back with a percent
sign appended. -/
def modFontSizeKey (fontSize0 : Option String) (key : String) : String :=
  let fs := fontSize0.getD "100%"
  let n := jsParseInt (jsSliceDropLast fs)
  let n1 : Option Int :=
    match key with
    | "=" => n.map (fun v => v + 2)
    | "-" => n.map (fun v => v - 2)
    | "0" => some 100
    | _ => n
  jsNumToString n1 ++ "%"

/-- The modifier branch of Reader.arrowKeys acting on
this.settings.styles: without a modifier the styles are untouched;
with one, an undefined styles object makes the handler return early;
otherwise the fontSize field (a string, or undefined) is rewritten by
the font-size arithmetic. -/
def arrowKeysFontSize (e : KeyEvent) (styles : Option Obj) : Option Obj :=
  if e.ctrlKey || e.metaKey then
    match styles with
    | none => none
    | some st =>
      let fs : Option String :=
        match getProp st "fontSize" with
        | some (JVal.jstr s) => some s
        | _ => none
      some (setProp st "fontSize" (JVal.jstr (modFontSizeKey fs e.key)))
  else styles

/-- A page-turn command sent to the rendition. -/
inductive PageCmd where
  | next : PageCmd
  | prev : PageCmd
deriving DecidableEq

/-- The arrow-key switch of Reader.arrowKeys: ArrowLeft turns to the
next page when the declared reading direction of the package metadata
is rtl and to the previous page otherwise; ArrowRight is the mirror
image; other keys turn no page. -/
def arrowKeyPage (direction : String) (key : String) : Option PageCmd :=
  match key with
  | "ArrowLeft" =>
    some (if direction = "rtl" then PageCmd.next else PageCmd.prev)
  | "ArrowRight" =>
    some (if direction = "rtl" then PageCmd.prev else PageCmd.next)
  | _ => none

/- ----------------- helper lemmas for the merge ----------------- -/

theorem defaultsVal_idem (t sty : JVal) :
    defaultsVal (defaultsVal t sty) sty = defaultsVal t sty := by
  cases t <;> simp [defaultsVal, defaultsProps_idem]

theorem stylesTarget_of_truthy (w : JVal) (h : truthy w = true) :
    stylesTarget (some w) = w := by
  simp [stylesTarget, h]

theorem truthy_defaultsVal_stylesTarget (o : Option JVal) (sty : JVal) :
    truthy (defaultsVal (stylesTarget o) sty) = true := by
  cases o with
  | none => rfl
  | some w =>
    cases hw : truthy w with
    | false =>
      have hs : stylesTarget (some w) = JVal.jobj [] := by
        simp [stylesTarget, hw]
      rw [hs]
      rfl
    | true =>
      have hs : stylesTarget (some w) = w := by
        simp [stylesTarget, hw]
      rw [hs]
      cases w
      case jobj l => rfl
      all_goals exact hw

/- -------------------------- the claims -------------------------- -/

/-- Claim C4: the defaults merge never overwrites a field already
defined in the target and fills in exactly the fields that are
undefined in the target, and on the two cited concrete examples it
keeps the target value over the source value and fills a missing
field from the source. -/
theorem claim_C4 :
    (∀ (t : Obj) (s : JVal) (k : String),
        (getProp t k).isSome → getProp (defaults t s) k = getProp t k) ∧
    (∀ (t : Obj) (s : JVal) (k : String),
        getProp t k = none → getProp (defaults t s) k = getProp (enumProps s) k) ∧
    defaults [("a", JVal.jnum 1)] (JVal.jobj [("a", JVal.jnum 2)])
      = [("a", JVal.jnum 1)] ∧
    defaults [] (JVal.jobj [("a", JVal.jnum 2)]) = [("a", JVal.jnum 2)] := by
  refine ⟨?_, ?_, rfl, rfl⟩
  · intro t s k h
    rw [defaults, getProp_defaultsProps]
    cases hg : getProp t k with
    | none => rw [hg] at h; cases h
    | some v => rfl
  · intro t s k h
    rw [defaults, getProp_defaultsProps, h]
    rfl

/-- Witness for claim C4 at the concrete target with a defined field a
and a source carrying a different value for a. -/
theorem claim_C4_witness :
    (getProp ([("a", JVal.jnum 1)] : Obj) "a").isSome ∧
    getProp (defaults [("a", JVal.jnum 1)] (JVal.jobj [("a", JVal.jnum 2)])) "a"
      = getProp ([("a", JVal.jnum 1)] : Obj) "a" :=
  ⟨rfl, claim_C4.1 [("a", JVal.jnum 1)] (JVal.jobj [("a", JVal.jnum 2)]) "a" rfl⟩

/-- Claim C9: merging the same saved record into the settings twice,
through the styles merge followed by the merge of the remaining
fields, produces the same settings object as merging it once. -/
theorem claim_C9 :
    ∀ (settings : Obj) (stored : JVal),
      applySavedMerge (applySavedMerge settings stored) stored
        = applySavedMerge settings stored := by
  intro settings stored
  unfold applySavedMerge
  cases hsty : propOf stored "styles" with
  | none => simp only [defaultsProps_idem]
  | some sty =>
    cases ht : truthy sty with
    | false =>
      simp only [ht, Bool.false_eq_true, if_false, defaultsProps_idem]
    | true =>
      simp only [ht, eq_self_iff_true, if_true]
      have hA : getProp
          (defaultsProps
            (setProp settings "styles"
              (defaultsVal (stylesTarget (getProp settings "styles")) sty))
            (enumProps stored)) "styles"
          = some (defaultsVal (stylesTarget (getProp settings "styles")) sty) := by
        rw [getProp_defaultsProps, getProp_setProp_self]
        rfl
      rw [hA]
      have hTr : truthy (defaultsVal (stylesTarget (getProp settings "styles")) sty)
          = true := truthy_defaultsVal_stylesTarget _ _
      have hSt : stylesTarget
            (some (defaultsVal (stylesTarget (getProp settings "styles")) sty))
          = defaultsVal (stylesTarget (getProp settings "styles")) sty :=
        stylesTarget_of_truthy _ hTr
      rw [hSt, defaultsVal_idem, setProp_eq_of_getProp _ _ _ hA,
        defaultsProps_idem]

/-- Claim C3: when the stored text under bookKey is not valid JSON,
applySavedSettings returns normally (the parse failure is modelled as
the none result of the parse function, the caught exception), reports
failure, leaves the settings unchanged, and gives the same result and
settings as when no record exists under bookKey at all. -/
theorem claim_C3 :
    ∀ (parseF : String → Option JVal) (storage storage2 : Store)
      (settings : Obj) (text : String),
      getProp storage (bookKeyOf settings) = some text →
      parseF text = none →
      getProp storage2 (bookKeyOf settings) = none →
      applySavedSettings parseF true storage settings = (false, settings) ∧
      applySavedSettings parseF true storage settings
        = applySavedSettings parseF true storage2 settings := by
  intro parseF storage storage2 settings text hg hp hg2
  constructor
  · simp [applySavedSettings, hg, hp]
  · simp [applySavedSettings, hg, hp, hg2, truthy]

/-- Witness for claim C3: an always-failing parse on a storage holding
a corrupt record under the key, compared against the empty storage. -/
theorem claim_C3_witness :
    applySavedSettings (fun _ => none) true [("undefined", "notjson")] []
      = (false, []) ∧
    applySavedSettings (fun _ => none) true [("undefined", "notjson")] []
      = applySavedSettings (fun _ => none) true [] [] :=
  claim_C3 (fun _ => none) [("undefined", "notjson")] [] [] "notjson" rfl rfl rfl

/-- Claim C5: when bookKey is undefined, setBookKey derives it as the
namespace prefix concatenated with the hash of the identifier; the
derivation is deterministic across settings objects; and once bookKey
is defined, setBookKey changes nothing. -/
theorem claim_C5 :
    (∀ (md5 : String → String) (settings : Obj) (bookPath : String),
        getProp settings "bookKey" = none →
        getProp (setBookKey md5 settings bookPath) "bookKey"
          = some (JVal.jstr ("epubjs-reader:" ++ md5 bookPath))) ∧
    (∀ (md5 : String → String) (s1 s2 : Obj) (bookPath : String),
        getProp s1 "bookKey" = none → getProp s2 "bookKey" = none →
        getProp (setBookKey md5 s1 bookPath) "bookKey"
          = getProp (setBookKey md5 s2 bookPath) "bookKey") ∧
    (∀ (md5 : String → String) (settings : Obj) (bookPath : String) (v : JVal),
        getProp settings "bookKey" = some v →
        setBookKey md5 settings bookPath = settings) := by
  refine ⟨?_, ?_, ?_⟩
  · intro md5 settings bookPath h
    simp [setBookKey, h, getProp_setProp_self]
  · intro md5 s1 s2 bookPath h1 h2
    simp [setBookKey, h1, h2, getProp_setProp_self]
  · intro md5 settings bookPath v h
    simp [setBookKey, h]

/-- Witness for claim C5 with the identity hash: derivation on empty
settings, and stability on settings already carrying a key. -/
theorem claim_C5_witness :
    getProp (setBookKey (fun s => s) [] "X") "bookKey"
      = some (JVal.jstr ("epubjs-reader:" ++ "X")) ∧
    setBookKey (fun s => s) [("bookKey", JVal.jstr "k")] "X"
      = [("bookKey", JVal.jstr "k")] :=
  ⟨claim_C5.1 (fun s => s) [] "X" rfl,
   claim_C5.2.2 (fun s => s) [("bookKey", JVal.jstr "k")] "X" (JVal.jstr "k") rfl⟩

/-- Claim C6: setLocation pushes a history entry only when history
tracking is enabled and the derived fragment differs from the current
hash, in which case exactly one entry is appended; a second call with
the same position adds no further entry. -/
theorem claim_C6 :
    (∀ (he : Bool) (st : LocState) (cfi : String),
        (setLocation he st cfi).historyEntries ≠ st.historyEntries →
        he = true ∧ st.hash ≠ "#" ++ cfi ∧
        (setLocation he st cfi).historyEntries
          = st.historyEntries ++ ["#" ++ cfi]) ∧
    (∀ (he : Bool) (st : LocState) (cfi : String),
        (setLocation he (setLocation he st cfi) cfi).historyEntries
          = (setLocation he st cfi).historyEntries) := by
  constructor
  · intro he st cfi hne
    cases he with
    | false => simp [setLocation] at hne
    | true =>
      by_cases hh : st.hash = "#" ++ cfi
      · simp [setLocation, hh] at hne
      · exact ⟨rfl, hh, by simp [setLocation, hh]⟩
  · intro he st cfi
    cases he with
    | false => simp [setLocation]
    | true =>
      by_cases hh : st.hash = "#" ++ cfi
      · simp [setLocation, hh]
      · simp [setLocation, hh]

/-- Witness for claim C6: from an empty hash, setting location a
pushes the fragment onto the empty history. -/
theorem claim_C6_witness :
    (setLocation true ⟨"", [], none⟩ "a").historyEntries = [] ++ ["#" ++ "a"] :=
  (claim_C6.1 true ⟨"", [], none⟩ "a" (by decide)).2.2

/-- Claim C7: with the stored font size at 100 percent, one modifier
equals keydown stores 102 percent and one modifier minus keydown
stores 98 percent; a modifier zero keydown stores exactly 100 percent
whatever the prior stored font size was. -/
theorem claim_C7 :
    arrowKeysFontSize ⟨true, false, "="⟩ (some [("fontSize", JVal.jstr "100%")])
      = some [("fontSize", JVal.jstr "102%")] ∧
    arrowKeysFontSize ⟨true, false, "-"⟩ (some [("fontSize", JVal.jstr "100%")])
      = some [("fontSize", JVal.jstr "98%")] ∧
    ∀ prior : String,
      arrowKeysFontSize ⟨true, false, "0"⟩ (some [("fontSize", JVal.jstr prior)])
        = some [("fontSize", JVal.jstr "100%")] :=
  ⟨rfl, rfl, fun _ => rfl⟩

/-- Claim C8: with declared reading direction rtl, ArrowLeft turns to
the next page and ArrowRight to the previous one; with any other
declared direction, ArrowLeft turns to the previous page and
ArrowRight to the next. -/
theorem claim_C8 :
    arrowKeyPage "rtl" "ArrowLeft" = some PageCmd.next ∧
    arrowKeyPage "rtl" "ArrowRight" = some PageCmd.prev ∧
    ∀ d : String, d ≠ "rtl" →
      arrowKeyPage d "ArrowLeft" = some PageCmd.prev ∧
      arrowKeyPage d "ArrowRight" = some PageCmd.next := by
  refine ⟨rfl, rfl, ?_⟩
  intro d hd
  constructor <;> simp [arrowKeyPage, hd]

/-- Witness for claim C8 at the left-to-right direction ltr. -/
theorem claim_C8_witness :
    arrowKeyPage "ltr" "ArrowLeft" = some PageCmd.prev ∧
    arrowKeyPage "ltr" "ArrowRight" = some PageCmd.next :=
  claim_C8.2.2 "ltr" (by decide)

/-- Counterexample to claim C1: with caller options supplying language
fr and the query string carrying language de, init leaves language
holding de, so the caller-supplied value is replaced by the URL-query
value, contrary to the claim. -/
theorem claim_C1_counterexample :
    getProp (initSettingsPhase (fun s => s) [("language", JVal.jstr "fr")]
        "book.epub" "?language=de") "language" ≠ some (JVal.jstr "fr") ∧
    getProp (initSettingsPhase (fun s => s) [("language", JVal.jstr "fr")]
        "book.epub" "?language=de") "language" = some (JVal.jstr "de") := by
  have he : getProp (initSettingsPhase (fun s => s) [("language", JVal.jstr "fr")]
      "book.epub" "?language=de") "language" = some (JVal.jstr "de") := rfl
  refine ⟨?_, he⟩
  intro h
  rw [he] at h
  injection h with h1
  injection h1 with h2
  exact absurd h2 (by decide)

/-- Claim C1 as amended: the URL-query assignment runs after the
defaults merge and is unconditional, so a query parameter value
overrides both the built-in default and any caller-supplied override
for that field; concretely, a caller-supplied language fr is replaced
by the query value de. -/
theorem claim_C1_amended :
    (∀ (dec : String → String) (options : Obj) (bookPath p : String),
        getProp (applyQueryParam dec
            (defaultsProps options (builtinDefaults bookPath)) p)
          (parseParam p).1
          = some (JVal.jstr (dec (parseParam p).2))) ∧
    getProp (initSettingsPhase (fun s => s) [("language", JVal.jstr "fr")]
        "book.epub" "?language=de") "language" = some (JVal.jstr "de") := by
  constructor
  · intro dec options bookPath p
    rw [applyQueryParam, getProp_setProp_self]
  · rfl

/-- Counterexample to claim C2: with a book open, a reported rendition
start position, and the backend unavailable, saveSettings returns
false yet the settings object has changed — previousLocationCfi has
been written. -/
theorem claim_C2_counterexample :
    (saveSettings (fun _ => "") true (some "epubcfi(/6/2)") false [] []).1
      = false ∧
    (saveSettings (fun _ => "") true (some "epubcfi(/6/2)") false [] []).2.1
      ≠ ([] : Obj) ∧
    (saveSettings (fun _ => "") true (some "epubcfi(/6/2)") false [] []).2.1
      = [("previousLocationCfi", JVal.jstr "epubcfi(/6/2)")] := by
  refine ⟨rfl, ?_, rfl⟩
  intro h
  have he : (saveSettings (fun _ => "") true (some "epubcfi(/6/2)") false [] []).2.1
      = [("previousLocationCfi", JVal.jstr "epubcfi(/6/2)")] := rfl
  rw [he] at h
  exact List.cons_ne_nil _ _ h

/-- Claim C2 as amended: when the backend is unavailable saveSettings
returns false and leaves the storage unchanged, but the settings have
already received the rendition start CFI update, which runs before the
availability check; when the backend is available, the start CFI (if
present) is first copied into previousLocationCfi and the serialized
settings are then stored under bookKey. -/
theorem claim_C2_amended :
    ∀ (stringifyF : Obj → String) (bookLoaded : Bool) (curStart : Option String)
      (storage : Store) (settings : Obj),
      saveSettings stringifyF bookLoaded curStart false storage settings
        = (false, updateLocationCfi bookLoaded curStart settings, storage) ∧
      (saveSettings stringifyF bookLoaded curStart true storage settings
        = (true, updateLocationCfi bookLoaded curStart settings,
            setProp storage (bookKeyOf (updateLocationCfi bookLoaded curStart settings))
              (stringifyF (updateLocationCfi bookLoaded curStart settings))) ∧
       getProp (saveSettings stringifyF bookLoaded curStart true storage settings).2.2
          (bookKeyOf (updateLocationCfi bookLoaded curStart settings))
          = some (stringifyF (updateLocationCfi bookLoaded curStart settings))) ∧
      (∀ cfi : String, bookLoaded = true → curStart = some cfi →
        getProp (updateLocationCfi bookLoaded curStart settings)
            "previousLocationCfi" = some (JVal.jstr cfi)) := by
  intro stringifyF bookLoaded curStart storage settings
  refine ⟨rfl, ⟨rfl, ?_⟩, ?_⟩
  · simp [saveSettings, getProp_setProp_self]
  · intro cfi hb hc
    subst hb
    subst hc
    simp [updateLocationCfi, getProp_setProp_self]

/-- Witness for claim C2 as amended: a loaded book with start CFI c,
empty storage and empty settings, under the unavailable backend. -/
theorem claim_C2_amended_witness :
    saveSettings (fun _ => "S") true (some "c") false [] []
      = (false, updateLocationCfi true (some "c") [], []) ∧
    getProp (updateLocationCfi true (some "c") []) "previousLocationCfi"
      = some (JVal.jstr "c") :=
  ⟨(claim_C2_amended (fun _ => "S") true (some "c") [] []).1,
   (claim_C2_amended (fun _ => "S") true (some "c") [] []).2.2 "c" rfl rfl⟩

/-- The value claim C10 asserts a query parameter assigns: the
URL-decoded text after the equals sign, everything following the first
separator, or the empty string when there is none. Stated from the
claim, for comparison with the implementation. -/
def claimQueryValue (dec : String → String) (p : String) : String :=
  match splitOnChar '=' p with
  | [] => ""
  | [_] => ""
  | _ :: rest => dec (String.intercalate "=" rest)

/-- Counterexample to claim C10: for the parameter k=b=c the code
assigns the decoded second segment b, not the decoded text after the
equals sign, which is b=c. -/
theorem claim_C10_counterexample :
    getProp (applyQueryParam (fun s => s) [] "k=b=c") "k"
      = some (JVal.jstr "b") ∧
    claimQueryValue (fun s => s) "k=b=c" = "b=c" ∧
    getProp (applyQueryParam (fun s => s) [] "k=b=c") "k"
      ≠ some (JVal.jstr (claimQueryValue (fun s => s) "k=b=c")) := by
  refine ⟨rfl, rfl, ?_⟩
  intro h
  have h0 : some (JVal.jstr "b")
      = some (JVal.jstr (claimQueryValue (fun s => s) "k=b=c")) := h
  have h1 : some (JVal.jstr "b") = some (JVal.jstr "b=c") := h0
  injection h1 with h2
  injection h2 with h3
  exact absurd h3 (by decide)

/-- Claim C10 as amended: every settings field assigned from a URL
query parameter holds a string, the URL-decoded second
equals-separated segment (the text between the first and second
separator, or the empty string when no separator is present), even for
fields declared as booleans; consequently restore=false stores the
non-empty string false, which the restore check treats as enabled. -/
theorem claim_C10_amended :
    (∀ (dec : String → String) (settings : Obj) (p : String),
        getProp (applyQueryParam dec settings p) ((splitOnChar '=' p).headD "")
          = some (JVal.jstr (dec (((splitOnChar '=' p).drop 1).headD "")))) ∧
    getProp (initSettingsPhase (fun s => s) [] "b" "?restore=false") "restore"
      = some (JVal.jstr "false") ∧
    restoreEnabled (initSettingsPhase (fun s => s) [] "b" "?restore=false")
      = true := by
  refine ⟨?_, rfl, rfl⟩
  intro dec settings p
  rw [applyQueryParam, parseParam, getProp_setProp_self]

end EpubReader
